import Mathlib

/-!
Verification development for the scanned-image → document exporter in
`core/document_processor.py` (repository PDFtoLateXorDoc): a shallow
embedding of its region enrichment, page assembly and format-dispatch
logic, with theorems about each part.

External capabilities (the layout model, OCR, the cleanup HTTP service,
`python-docx`, the filesystem) are modelled as explicit parameters or
oracle fields, one per call-site outcome.  All text is modelled as
`String` / `List Char`; each hand-written scanner below implements one
concrete regular expression of the source, named in its doc comment.
-/

namespace DocProc

abbrev Chars := List Char

/-- Python whitespace as used by `str.strip()` (the ASCII set; the pipeline
only ever strips ASCII whitespace it generated itself). -/
def pyWs (c : Char) : Bool :=
  c = ' ' || c = '\t' || c = '\n' || c = '\r' || c = '\x0b' || c = '\x0c'

/-- Python `str.strip()` on a character list: drop whitespace at both ends. -/
def pyStripL (l : Chars) : Chars :=
  ((l.dropWhile pyWs).reverse.dropWhile pyWs).reverse

/-- Python `str.strip()` on a string. -/
def pyStrip (s : String) : String := String.mk (pyStripL s.data)

/-- Python substring test `pat in s`. -/
def occursIn (pat : Chars) : Chars → Bool
  | [] => pat.isPrefixOf []
  | c :: cs => pat.isPrefixOf (c :: cs) || occursIn pat cs

/-- Codepoints removed by `clean_text_for_xml` (document_processor.py lines
10-16): the regex class `[\x00-\x08\x0B-\x0C\x0E-\x1F]`. -/
def strippedCtl (c : Char) : Bool :=
  c.toNat ≤ 0x08 || c.toNat = 0x0B || c.toNat = 0x0C ||
    (0x0E ≤ c.toNat && c.toNat ≤ 0x1F)

/-- `clean_text_for_xml` (lines 10-16): `re.sub` with a single-character class
deletes exactly the characters of that class (on the empty string it returns
the empty string, the same as the `if not text` guard). -/
def clean_text_for_xml (s : String) : String :=
  String.mk (s.data.filter (fun c => !strippedCtl c))

/-- Outcome of the HTTP call to the text-cleanup service: a response carrying
a status code and parsed content, or an exception (transport error, 60 s
timeout, malformed JSON — everything the `except Exception` of lines 80-82
catches). -/
inductive Svc where
  | resp (status : Nat) (content : String)
  | exc
deriving DecidableEq

/-- `process_text_with_deepseek` (lines 19-82): on HTTP 200 return the service
content, on any other status or on an exception return the input text
unchanged. -/
def process_text_with_deepseek (svc : Svc) (ocr_text : String) : String :=
  match svc with
  | .resp status content => if status = 200 then content else ocr_text
  | .exc => ocr_text

/-- `save_region_image` (lines 85-106).  The page raster is H×W×3 — the caller
obtained it from `cv2.imread`, which yields a 3-channel array, so the
`len(img_array.shape) == 3` guard holds.  `writeOk` models the directory
creation and `cv2.imwrite` call completing without raising; any exception is
caught and yields `None`.  A bbox whose length is not 4 makes the four-way
unpacking `x1, y1, x2, y2 = map(int, bbox)` raise, which the `except` also
turns into `None`.  The returned relative path already uses forward slashes. -/
def save_region_image (H W : Nat) (bbox : List Int) (writeOk : Bool)
    (region_type : String) (page_index region_index : Nat) : Option String :=
  if bbox.length = 4 then
    let x1 := max 0 (bbox.getD 0 0)
    let y1 := max 0 (bbox.getD 1 0)
    let x2 := min (W : Int) (bbox.getD 2 0)
    let y2 := min (H : Int) (bbox.getD 3 0)
    if x2 > x1 ∧ y2 > y1 then
      if writeOk then
        some (region_type ++ "/page_" ++ toString page_index ++ "_region_" ++
          toString region_index ++ ".jpg")
      else none
    else none
  else none

/-- One detected layout region as consumed by `process_single_image`.
`rawText` is the OCR text assembled by lines 170-206 (newline-joined `res`
lines of the structure result, or the fallback `ocr_model.ocr` call) — an
output of the external OCR capability.  `svc` is the outcome of this region's
cleanup-service call and `writeOk` the outcome of this region's image write. -/
structure Region where
  rtype : String
  bbox : List Int
  rawText : String
  svc : Svc
  writeOk : Bool
deriving DecidableEq

/-- Sort key, y component (lines 153-154):
`x.get('bbox', [0,0,0,0])[1] if ... len(x.get('bbox', [])) >= 2 else 0`. -/
def bby (r : Region) : Int := if 2 ≤ r.bbox.length then r.bbox.getD 1 0 else 0

/-- Sort key, x component (lines 153-155). -/
def bbx (r : Region) : Int := if 1 ≤ r.bbox.length then r.bbox.getD 0 0 else 0

/-- Comparison realising Python's `sorted` with key `(bby, bbx)`: the
lexicographic order on the key pair. -/
def regionLe (a b : Region) : Prop :=
  bby a < bby b ∨ (bby a = bby b ∧ bbx a ≤ bbx b)

instance : DecidableRel regionLe := fun a b =>
  inferInstanceAs (Decidable (bby a < bby b ∨ (bby a = bby b ∧ bbx a ≤ bbx b)))

instance : IsTotal Region regionLe :=
  ⟨by intro a b; unfold regionLe; omega⟩

instance : IsTrans Region regionLe :=
  ⟨by intro a b c hab hbc; unfold regionLe at *; omega⟩

/-- Line 153: `sorted(processed_results, key=lambda x: (y, x))`.  Python's
`sorted` is exactly a stable sort by the key; a stable sort by a total
preorder is unique, so the stable `List.insertionSort` realises it. -/
def sortRegions (l : List Region) : List Region := List.insertionSort regionLe l

/-- `caption_map` of lines 236-240, applied as `.get(region_type, '图片')`. -/
def figureCaption (rtype : String) : String :=
  if rtype = "figure" then "图" else if rtype = "image" then "图片"
  else if rtype = "formula" then "公式" else "图片"

/-- The LaTeX figure block emitted for a saved region image (lines 225 and
242; the `replace('\\', '/')` on the path is the identity because
`save_region_image` already returns forward slashes). -/
def figureBlock (path caption : String) : String :=
  "\n\\begin\x7bfigure\x7d[h]\n\\centering\n\\includegraphics[width=0.8\\textwidth]\x7b"
    ++ path ++ "\x7d\n\\caption\x7b" ++ caption ++ "\x7d\n\\end\x7bfigure\x7d\n"

/-- The region loop of `process_single_image` (lines 158-243), producing
`latex_parts`.  The final `Nat` argument is `region_index`, incremented only
by the table/figure/image/formula branches, exactly as in the source. -/
def processRegions (H W : Nat) (pageIdx : Nat) : List Region → Nat → List String
  | [], _ => []
  | r :: rest, regionIdx =>
    if r.bbox.length < 4 then processRegions H W pageIdx rest regionIdx
    else if r.rtype = "text" ∨ r.rtype = "title" then
      (if pyStrip r.rawText ≠ "" then
        [process_text_with_deepseek r.svc (clean_text_for_xml r.rawText)]
      else []) ++ processRegions H W pageIdx rest regionIdx
    else if r.rtype = "table" then
      (match save_region_image H W r.bbox r.writeOk "table" pageIdx regionIdx with
        | some p => [figureBlock p "表格"]
        | none => []) ++ processRegions H W pageIdx rest (regionIdx + 1)
    else if r.rtype = "figure" ∨ r.rtype = "image" ∨ r.rtype = "formula" then
      (match save_region_image H W r.bbox r.writeOk r.rtype pageIdx regionIdx with
        | some p => [figureBlock p (figureCaption r.rtype)]
        | none => []) ++ processRegions H W pageIdx rest (regionIdx + 1)
    else processRegions H W pageIdx rest regionIdx

/-- Inputs and call outcomes for one page image: `readable` is `cv2.imread`
succeeding (line 116), `layoutOk` the structure-model call not raising (lines
122-126).  `regions` is the flattened `processed_results` of lines 136-150. -/
structure PageImage where
  readable : Bool
  layoutOk : Bool
  H : Nat
  W : Nat
  regions : List Region
deriving DecidableEq

/-- `process_single_image` (lines 109-245): abort to `""` on an unreadable
image or a failed layout call, otherwise sort the regions, enrich each and
join the fragments with a blank line. -/
def process_single_image (p : PageImage) (page_index : Nat) : String :=
  if p.readable then
    if p.layoutOk then
      String.intercalate "\n\n"
        (processRegions p.H p.W page_index (sortRegions p.regions) 0)
    else ""
  else ""

/-- Page loop of `process_all_images` (lines 287-296), with
`enumerate(image_files, 1)`: keep the pages whose body is non-blank, each
prefixed by its page-level subsection header. -/
def allLatexAux : Nat → List PageImage → List String
  | _, [] => []
  | i, p :: ps =>
    let c := process_single_image p i
    (if pyStrip c ≠ "" then
      ["\\subsection\x7b第 " ++ toString i ++ " 页\x7d\n\n" ++ c]
    else []) ++ allLatexAux (i + 1) ps

/-- `all_latex_content` accumulated by lines 287-296. -/
def allLatexContent (imgs : List PageImage) : List String := allLatexAux 1 imgs

/-- Line 299: `body_content = "\n\n\\newpage\n\n".join(all_latex_content)`. -/
def bodyContent (pages : List String) : String :=
  String.intercalate "\n\n\\newpage\n\n" pages

/-! ### Regex scanners

Each definition below implements one concrete regular expression of the
source, named in its doc comment, with `re`'s leftmost, non-overlapping
semantics: a matcher tries the pattern at one start position, and `reSub` /
`reSearch` advance one character on failure. -/

/-- A positional matcher for `re.sub`: on success, the replacement text and
the remainder after the matched span. -/
abbrev Matcher := Chars → Option (Chars × Chars)

/-- `re.sub` for a positional matcher: scan left to right, replacing
non-overlapping matches and resuming after each one.  The length guard only
serves termination; every matcher used below consumes at least one
character. -/
def reSub (m : Matcher) : Chars → Chars
  | [] => []
  | c :: cs =>
    match m (c :: cs) with
    | some (r, rest) =>
      if h : rest.length < cs.length + 1 then r ++ reSub m rest
      else c :: reSub m cs
    | none => c :: reSub m cs
termination_by s => s.length
decreasing_by
  all_goals simp only [List.length_cons]
  all_goals omega

/-- `re.search` for a positional matcher returning a capture: try each start
position, left to right. -/
def reSearch (m : Chars → Option α) : Chars → Option α
  | [] => m []
  | c :: cs =>
    match m (c :: cs) with
    | some r => some r
    | none => reSearch m cs

/-- Positional match of a literal pattern fragment: the remainder on
success. -/
def matchLit (lit : Chars) (s : Chars) : Option Chars :=
  if lit.isPrefixOf s then some (s.drop lit.length) else none

/-- Positional match of `\{([^}]+)\}`: an opening brace, a non-empty run of
non-`}` characters (greedy, deterministic), a closing brace; returns the
capture and the remainder. -/
def matchBraceArg : Chars → Option (Chars × Chars)
  | '\x7b' :: rest =>
    let arg := rest.takeWhile (fun c => c != '\x7d')
    let r1 := rest.dropWhile (fun c => c != '\x7d')
    if arg = [] then none
    else
      match r1 with
      | '\x7d' :: r2 => some (arg, r2)
      | _ => none
  | _ => none

def bsLit : Chars := ("\\").data
def textLit : Chars := ("\\text").data
def pipeLit : Chars := ("|").data
def subLit : Chars := ("sub").data
def incgLit : Chars := ("\\includegraphics").data
def captionLit : Chars := ("\\caption").data
def beginFigLit : Chars := ("\\begin\x7bfigure\x7d").data
def endFigLit : Chars := ("\\end\x7bfigure\x7d").data
def beginTableLit : Chars := ("\\begin\x7btable\x7d").data
def sectionLit : Chars := ("\\section").data
def subsectionLit : Chars := ("\\subsection").data
def subsubsectionLit : Chars := ("\\subsubsection").data
def secOpenLit : Chars := ("\\section\x7b").data
def subsecOpenLit : Chars := ("\\subsection\x7b").data
def subsubsecOpenLit : Chars := ("\\subsubsection\x7b").data
def textbackslashLit : Chars := ("\\textbackslash").data
def pageHdrPre : Chars := ("\\subsection\x7b第 ").data
def pageHdrSuf : Chars := (" 页\x7d").data

/-- Python `s.startswith(pre)`. -/
def startsW (pre s : Chars) : Bool := pre.isPrefixOf s

/-- Positional match of `lit\{([^}]+)\}`, returning the capture (used for
`\\caption\{([^}]+)\}` and the heading patterns). -/
def matchLitBraceArg (lit : Chars) (s : Chars) : Option Chars :=
  match matchLit lit s with
  | some r1 =>
    match matchBraceArg r1 with
    | some (arg, _) => some arg
    | none => none
  | none => none

/-- `re.search(lit + r'\{([^}]+)\}', s)`, capture only. -/
def searchLitArg (lit : Chars) (s : Chars) : Option Chars :=
  reSearch (matchLitBraceArg lit) s

/-- Positional match of `\\includegraphics.*?\{([^}]+)\}` (no DOTALL: `.`
does not match a newline, and the lazy `.*?` stops at the first `{`). -/
def matchIncgArg (s : Chars) : Option Chars :=
  match matchLit incgLit s with
  | some r1 =>
    matchBraceArg (r1.dropWhile (fun c => c != '\x7b' && c != '\n')) |>.map (·.1)
  | none => none

/-- `re.search(r'\\includegraphics.*?\{([^}]+)\}', s)` (lines 319/389/452). -/
def searchIncgArg (s : Chars) : Option Chars := reSearch matchIncgArg s

/-- The character class `([&%$#_{}])` of lines 347 and 505. -/
def specialsEsc : Chars := [ '&', '%', '$', '#', '_', '\x7b', '\x7d' ]

/-- Positional match of `\\([&%$#_{}])`, replacement `\1`. -/
def matchEscape : Matcher := fun s =>
  match s with
  | '\\' :: c :: rest => if specialsEsc.contains c then some ([c], rest) else none
  | _ => none

/-- `re.sub(r'\\([&%$#_{}])', r'\1', s)` (lines 347 and 505). -/
def subEscape (s : Chars) : Chars := reSub matchEscape s

/-- Positional match of `\\[a-zA-Z]+\{([^}]+)\}`, replacement `\1`. -/
def matchCmdArg : Matcher := fun s =>
  match s with
  | '\\' :: rest =>
    if rest.takeWhile Char.isAlpha = [] then none
    else matchBraceArg (rest.dropWhile Char.isAlpha)
  | _ => none

/-- `re.sub(r'\\[a-zA-Z]+\{([^}]+)\}', r'\1', s)` (lines 349/405/508). -/
def subCmdArg (s : Chars) : Chars := reSub matchCmdArg s

/-- Positional match of `\\[a-zA-Z]+`, replacement the empty string. -/
def matchCmdBare : Matcher := fun s =>
  match s with
  | '\\' :: rest =>
    if rest.takeWhile Char.isAlpha = [] then none
    else some ([], rest.dropWhile Char.isAlpha)
  | _ => none

/-- `re.sub(r'\\[a-zA-Z]+', '', s)` (lines 350/406/509). -/
def subCmdBare (s : Chars) : Chars := reSub matchCmdBare s

/-- Positional match of `\\[a-z]+\{([^}]+)\}` (lower-case letters only),
replacement `\1` — the pdf heading cleanup of line 399. -/
def matchCmdArgLower : Matcher := fun s =>
  match s with
  | '\\' :: rest =>
    if rest.takeWhile Char.isLower = [] then none
    else matchBraceArg (rest.dropWhile Char.isLower)
  | _ => none

/-- `re.sub(r'\\[a-z]+\{([^}]+)\}', r'\1', s)` (line 399). -/
def subCmdArgLower (s : Chars) : Chars := reSub matchCmdArgLower s

/-- Positional match of `\\name\{([^}]+)\}` with replacement
`left ++ \1 ++ right` — the `\\textbf`, `\\textit`, `\\emph` and `\\text`
substitutions (the name here excludes the backslash). -/
def matchNamed (name left right : Chars) : Matcher := fun s =>
  match s with
  | '\\' :: rest =>
    match matchLit name rest with
    | some r1 =>
      match matchBraceArg r1 with
      | some (arg, r2) => some (left ++ arg ++ right, r2)
      | none => none
    | none => none
  | _ => none

/-- Positional match of the literal `\\textbackslash`, replacement one
backslash (the docx variant of line 506, whose raw-string replacement is
well-formed). -/
def matchTbs : Matcher := fun s =>
  match matchLit textbackslashLit s with
  | some r => some (bsLit, r)
  | none => none

/-- `re.sub(r'\\textbackslash', r'\\', s)` (line 506). -/
def subTbs (s : Chars) : Chars := reSub matchTbs s

/-- Scan for the lazily-closest `\end{figure}` (the DOTALL `.*?` of the
block-splitting pattern): the text before it and the remainder after it. -/
def matchFigEnvAux : Chars → Option (Chars × Chars)
  | [] => none
  | c :: cs =>
    if endFigLit.isPrefixOf (c :: cs) then some ([], (c :: cs).drop endFigLit.length)
    else
      match matchFigEnvAux cs with
      | some (mid, rest) => some (c :: mid, rest)
      | none => none

/-- Positional match of `\\begin\{figure\}.*?\\end\{figure\}` (DOTALL),
returning the whole matched span and the remainder. -/
def matchFigEnv (s : Chars) : Option (Chars × Chars) :=
  match matchLit beginFigLit s with
  | some r1 =>
    match matchFigEnvAux r1 with
    | some (mid, rest) => some (beginFigLit ++ mid ++ endFigLit, rest)
    | none => none
  | none => none

/-- Positional match of `lit\{[^}]+\}` keeping the whole matched span (the
heading alternatives of the block-splitting pattern). -/
def matchSecDelim (lit : Chars) (s : Chars) : Option (Chars × Chars) :=
  match matchLit lit s with
  | some r1 =>
    match matchBraceArg r1 with
    | some (arg, r2) => some (lit ++ '\x7b' :: (arg ++ [ '\x7d' ]), r2)
    | none => none
  | none => none

/-- One alternative of the block-splitting pattern of lines 312/383/443:
a figure environment, `\section{...}`, `\subsection{...}` and — in the docx
path only — `\subsubsection{...}`, tried in this order. -/
def matchBlockDelim (withSubsub : Bool) (s : Chars) : Option (Chars × Chars) :=
  match matchFigEnv s with
  | some r => some r
  | none =>
    match matchSecDelim sectionLit s with
    | some r => some r
    | none =>
      match matchSecDelim subsectionLit s with
      | some r => some r
      | none =>
        if withSubsub then matchSecDelim subsubsectionLit s else none

/-- `re.split` with a single capturing alternation (lines 312/383/443): the
non-matching segments interleaved with the matched delimiters.  The length
guard only serves termination; every delimiter consumes at least one
character. -/
def splitBlocksAux (withSubsub : Bool) (seg : Chars) : Chars → List Chars
  | [] => [seg.reverse]
  | c :: cs =>
    match matchBlockDelim withSubsub (c :: cs) with
    | some (m, rest) =>
      if h : rest.length < cs.length + 1 then
        seg.reverse :: m :: splitBlocksAux withSubsub [] rest
      else splitBlocksAux withSubsub (c :: seg) cs
    | none => splitBlocksAux withSubsub (c :: seg) cs
termination_by s => s.length
decreasing_by
  all_goals simp only [List.length_cons]
  all_goals omega

/-- `re.split(pattern, s)` as used on each page's content. -/
def splitBlocks (withSubsub : Bool) (s : Chars) : List Chars :=
  splitBlocksAux withSubsub [] s

/-- Positional match of `\\subsection\{第 (\d+) 页\}`, returning the captured
digits (the page-header search of lines 307/378/436). -/
def matchPageHdr (s : Chars) : Option Chars :=
  match matchLit pageHdrPre s with
  | some r1 =>
    let ds := r1.takeWhile Char.isDigit
    if ds = [] then none
    else
      match matchLit pageHdrSuf (r1.dropWhile Char.isDigit) with
      | some _ => some ds
      | none => none
  | none => none

/-- `re.search(r'\\subsection\{第 (\d+) 页\}', page_content)`. -/
def searchPageHdr (s : Chars) : Option Chars := reSearch matchPageHdr s

/-- Positional match of `\\subsection\{第 \d+ 页\}\s*\n\s*` with replacement
`''` (the header removal of lines 310/381/440).  Backtracking of
`\s*\n\s*` resolves to: consume the whole following whitespace run provided
it contains a newline. -/
def matchPageHdrWs : Matcher := fun s =>
  match matchLit pageHdrPre s with
  | some r1 =>
    let ds := r1.takeWhile Char.isDigit
    if ds = [] then none
    else
      match matchLit pageHdrSuf (r1.dropWhile Char.isDigit) with
      | some r2 =>
        if (r2.takeWhile pyWs).contains '\n' then some ([], r2.dropWhile pyWs)
        else none
      | none => none
  | none => none

/-- `re.sub(r'\\subsection\{第 \d+ 页\}\s*\n\s*', '', s)`. -/
def subPageHdr (s : Chars) : Chars := reSub matchPageHdrWs s

/-- Python `s.split('\n')`. -/
def splitNl : Chars → List Chars
  | [] => [[]]
  | c :: cs =>
    match splitNl cs with
    | [] => [[]]
    | r :: rs => if c = '\n' then [] :: r :: rs else (c :: r) :: rs

/-! ### The three format renderers -/

/-- One call into the `python-docx` document builder (used by both the docx
path and the pdf path, which also builds a Word document). -/
inductive DocxItem where
  | heading (text : String) (level : Nat)
  | par (text : String)
  | captionPar (text : String)
  | picture (path : String)
  | pageBreak
deriving DecidableEq

/-- Figure-environment handling of the html path (lines 318-331): embed the
image only when the referenced file exists (`fs`), then emit the caption
whenever one is present.  The `<img>` tag names the flat copy
`img_rel_path.replace(os.sep, '_')`. -/
def htmlFigureParts (fs : String → Bool) (block : Chars) : List String :=
  (match searchIncgArg block with
    | some rel =>
      if fs (String.mk rel) then
        ["<img src=\"" ++ ((String.mk rel).replace ("/") ("_")) ++ "\" alt=\"图片\">\n"]
      else []
    | none => []) ++
  (match searchLitArg captionLit block with
    | some cap =>
      ["<p style=\"text-align:center;font-style:italic;color:#666\">" ++
        String.mk cap ++ "</p>\n"]
    | none => [])

/-- Plain-text line handling of the html path (lines 340-352).  A blank
line, or a line starting with a backslash but not with `\text`, is skipped
by the `continue` of lines 342-343.  Every surviving line reaches line 348,
`re.sub(r'\\textbackslash', '\\', text)`, whose replacement string is a
lone backslash: CPython parses the replacement template eagerly, before
scanning for any match, so the call raises `re.error` on every invocation,
whatever the text.  `none` models that raise, which aborts the whole html
generation (the handler at line 361 then falls back to LaTeX); the
substitutions of lines 345-347 run first, but the raise discards their
results. -/
def htmlLineOut (line : Chars) : Option (List String) :=
  let l := pyStripL line
  if l = [] then some []
  else if startsW bsLit l && !startsW textLit l then some []
  else none

/-- Sequence a list of fallible part builders, concatenating their parts
(the html builder raises at the first failing part). -/
def optConcatMap (f : β → Option (List α)) : List β → Option (List α)
  | [] => some []
  | b :: bs =>
    match f b, optConcatMap f bs with
    | some x, some r => some (x ++ r)
    | _, _ => none

/-- Block dispatch of the html path (lines 314-352). -/
def htmlBlockOut (fs : String → Bool) (block : Chars) : Option (List String) :=
  if pyStripL block = [] then some []
  else if occursIn beginFigLit block then some (htmlFigureParts fs block)
  else if startsW secOpenLit block then
    some ["<h2>" ++
      pyStrip (String.mk (reSub (matchNamed (("section").data) [] []) block)) ++
      "</h2>\n"]
  else if startsW subsecOpenLit block then
    some ["<h3>" ++
      pyStrip (String.mk (reSub (matchNamed (("subsection").data) [] []) block)) ++
      "</h3>\n"]
  else optConcatMap htmlLineOut (splitNl block)

/-- The fixed html prologue of line 304. -/
def htmlHead : String :=
  "<!DOCTYPE html>\n<html lang=\"zh-CN\">\n<head>\n<meta charset=\"UTF-8\">\n<title>文档处理结果</title>\n<style>body\x7bfont-family:\"Microsoft YaHei\",Arial;max-width:900px;margin:0 auto;padding:20px;line-height:1.6\x7dh1\x7bcolor:#2c3e50;border-bottom:2px solid #3498db;padding-bottom:10px\x7dh2\x7bcolor:#34495e;margin-top:30px\x7dimg\x7bmax-width:100%;height:auto;margin:20px 0;border:1px solid #ddd\x7dp\x7bmargin:10px 0;text-indent:2em\x7d</style>\n</head>\n<body>\n<h1>文档处理结果</h1>\n"

/-- Page handling of the html path (lines 306-352). -/
def htmlPageOut (fs : String → Bool) (page : String) : Option (List String) :=
  let hdr := searchPageHdr page.data
  let body := match hdr with
    | some _ => subPageHdr page.data
    | none => page.data
  match optConcatMap (htmlBlockOut fs) (splitBlocks false body) with
  | some parts =>
    some ((match hdr with
      | some n => ["<h2>第 " ++ String.mk n ++ " 页</h2>\n"]
      | none => []) ++ parts)
  | none => none

/-- The html generation of lines 301-360: the joined parts list, or `none`
when building it raises (which makes the source fall back to LaTeX). -/
def htmlDocOut (fs : String → Bool) (pages : List String) : Option String :=
  match optConcatMap (htmlPageOut fs) pages with
  | some parts => some (String.join ([htmlHead] ++ parts ++ ["</body>\n</html>"]))
  | none => none

/-- Figure-environment handling of the docx path (lines 450-467):
everything, the caption included, is guarded by the image file existing; a
failing `add_picture` is replaced by a bracketed placeholder paragraph. -/
def docxFigureParts (fs picFail : String → Bool) (block : Chars) : List DocxItem :=
  match searchIncgArg block with
  | some rel =>
    if fs (String.mk rel) then
      if picFail (String.mk rel) then [.par ("[图片: " ++ String.mk rel ++ "]")]
      else
        .picture (String.mk rel) ::
          (match searchLitArg captionLit block with
            | some cap => [.captionPar (String.mk cap)]
            | none => [])
    else []
  | none => []

/-- Plain-text line handling of the docx path (lines 481-512). -/
def docxLineOut (line : Chars) : List DocxItem :=
  let l := pyStripL line
  if l = [] then [.par ""]
  else if startsW bsLit l && !startsW textLit l then []
  else if startsW pipeLit l || occursIn beginTableLit l then [.par (String.mk l)]
  else
    let t1 := reSub (matchNamed (("textbf").data) [] []) l
    let t2 := reSub (matchNamed (("textit").data) [] []) t1
    let t3 := reSub (matchNamed (("emph").data) [] []) t2
    let t4 := reSub (matchNamed (("text").data) [] []) t3
    let r := pyStripL (subCmdBare (subCmdArg (subTbs (subEscape t4))))
    if r = [] then [] else [.par (String.mk r)]

/-- Block dispatch of the docx path (lines 445-512). -/
def docxBlockOut (fs picFail : String → Bool) (block : Chars) : List DocxItem :=
  if pyStripL block = [] then []
  else if occursIn beginFigLit block then docxFigureParts fs picFail block
  else if startsW secOpenLit block then
    [.heading (pyStrip (String.mk (reSub (matchNamed (("section").data) [] []) block))) 1]
  else if startsW subsecOpenLit block then
    [.heading (pyStrip (String.mk (reSub (matchNamed (("subsection").data) [] []) block))) 2]
  else if startsW subsubsecOpenLit block then
    [.heading (pyStrip (String.mk (reSub (matchNamed (("subsubsection").data) [] []) block))) 3]
  else (splitNl block).foldr (fun ln acc => docxLineOut ln ++ acc) []

/-- Page handling of the docx path (lines 434-514), page break included. -/
def docxPageOut (fs picFail : String → Bool) (page : String) : List DocxItem :=
  (match searchPageHdr page.data with
    | some n => [.heading ("第 " ++ String.mk n ++ " 页") 2]
    | none => []) ++
  ((splitBlocks true (match searchPageHdr page.data with
      | some _ => subPageHdr page.data
      | none => page.data)).foldr
    (fun b acc => docxBlockOut fs picFail b ++ acc) []) ++
  [.pageBreak]

/-- The docx document build of lines 427-514. -/
def docxDocOut (fs picFail : String → Bool) (pages : List String) : List DocxItem :=
  .heading ("文档处理结果") 0 ::
    pages.foldr (fun p acc => docxPageOut fs picFail p ++ acc) []

/-- Figure-environment handling of the pdf path (lines 388-397): no caption
is ever emitted; a failing `add_picture` is swallowed. -/
def pdfFigureParts (fs picFail : String → Bool) (block : Chars) : List DocxItem :=
  match searchIncgArg block with
  | some rel =>
    if fs (String.mk rel) then
      if picFail (String.mk rel) then [] else [.picture (String.mk rel)]
    else []
  | none => []

/-- Plain-text line handling of the pdf path (lines 402-408): command
stripping only — in particular no unescaping of the special characters. -/
def pdfLineOut (line : Chars) : List DocxItem :=
  let l := pyStripL line
  if l ≠ [] && !startsW bsLit l then
    let r := pyStripL (subCmdBare (subCmdArg l))
    if r = [] then [] else [.par (String.mk r)]
  else []

/-- Block dispatch of the pdf path (lines 385-408). -/
def pdfBlockOut (fs picFail : String → Bool) (block : Chars) : List DocxItem :=
  if pyStripL block = [] then []
  else if occursIn beginFigLit block then pdfFigureParts fs picFail block
  else if startsW secOpenLit block || startsW subsecOpenLit block then
    [.heading (pyStrip (String.mk (subCmdArgLower block)))
      (if occursIn subLit block then 2 else 1)]
  else (splitNl block).foldr (fun ln acc => pdfLineOut ln ++ acc) []

/-- Page handling of the pdf path (lines 377-409), page break included. -/
def pdfPageOut (fs picFail : String → Bool) (page : String) : List DocxItem :=
  (match searchPageHdr page.data with
    | some n => [.heading ("第 " ++ String.mk n ++ " 页") 2]
    | none => []) ++
  ((splitBlocks false (match searchPageHdr page.data with
      | some _ => subPageHdr page.data
      | none => page.data)).foldr
    (fun b acc => pdfBlockOut fs picFail b ++ acc) []) ++
  [.pageBreak]

/-- The Word document built by the pdf branch (lines 374-409). -/
def pdfDocOut (fs picFail : String → Bool) (pages : List String) : List DocxItem :=
  .heading ("文档处理结果") 0 ::
    pages.foldr (fun p acc => pdfPageOut fs picFail p ++ acc) []

/-! ### The export dispatch -/

/-- Everything of the f-string of lines 531-555 before `{body_content}`. -/
def texPre : String :=
  "\\documentclass[12pt]\x7barticle\x7d\n\\usepackage[utf8]\x7binputenc\x7d\n\\usepackage\x7bgraphicx\x7d\n\\usepackage\x7bfloat\x7d\n\\usepackage\x7bamsmath\x7d\n\\usepackage\x7bamsfonts\x7d\n\\usepackage\x7bamssymb\x7d\n\\usepackage\x7bbooktabs\x7d\n\\usepackage\x7barray\x7d\n\\usepackage\x7blongtable\x7d\n\\usepackage\x7bxcolor\x7d\n\\usepackage\x7bgeometry\x7d\n\\geometry\x7ba4paper, margin=2.5cm\x7d\n\n\\title\x7b文档处理结果\x7d\n\\author\x7b自动生成\x7d\n\\date\x7b\\today\x7d\n\n\\begin\x7bdocument\x7d\n\n\\maketitle\n\n"

/-- Everything of the f-string of lines 531-555 after `{body_content}`. -/
def texPost : String := "\n\n\\end\x7bdocument\x7d"

/-- `latex_document` of lines 531-555: the body verbatim between the fixed
preamble and the closing line. -/
def latexDocument (body : String) : String := texPre ++ body ++ texPost

/-- Content of a written output document: html/tex files carry their text; a
`.docx` is produced through the `python-docx` builder calls. -/
inductive DocContent where
  | text (s : String)
  | docx (items : List DocxItem)
deriving DecidableEq

/-- One output document file written to disk. -/
structure WriteEvent where
  path : String
  content : DocContent
deriving DecidableEq

/-- Capability oracles for the export stage: `htmlWriteOk` is the html
branch's file writing and image copying not raising; `pdfBranchOk` and
`docxBranchOk` are the availability of `python-docx` plus a successful build
and `doc.save` in the pdf / docx branch; `fs` is the on-disk existence of a
region image; `picFail` an `add_picture` call raising. -/
structure Caps where
  htmlWriteOk : Bool
  pdfBranchOk : Bool
  docxBranchOk : Bool
  fs : String → Bool
  picFail : String → Bool

/-- The terminal tex stage (lines 529-569): the full document with the fixed
preamble plus the body-only `.tex.content` companion file; returns the
`.tex` path. -/
def texStage (stem : String) (body : String) : List WriteEvent × Option String :=
  ([⟨stem ++ ".tex", .text (latexDocument body)⟩,
    ⟨stem ++ ".tex.content", .text body⟩],
   some (stem ++ ".tex"))

/-- The two trailing `if` statements of `process_all_images` (lines 419-569):
the docx branch, falling back to tex on failure, then the tex branch.  Any
other `output_format` value at this point writes nothing, and the function
returns `None` by falling off the end. -/
def docxTexStage (fmt : String) (caps : Caps) (stem outPath : String)
    (pages : List String) (body : String) : List WriteEvent × Option String :=
  if fmt = "docx" then
    if caps.docxBranchOk then
      ([⟨outPath, .docx (docxDocOut caps.fs caps.picFail pages)⟩], some outPath)
    else texStage stem body
  else if fmt = "tex" then texStage stem body
  else ([], none)

/-- The format dispatch of `process_all_images` (lines 301-569).  `stem` is
`output_path` without its suffix — `with_suffix` replaces the suffix — and
`outPath` is `output_path` itself (the docx branch saves to it unchanged).
The `if/elif` of lines 301/366 cannot be re-entered: a pdf failure sets
`output_format = 'html'` and control then reaches only the two trailing `if`
statements, which match neither `'html'` nor anything else. -/
def exportDispatch (fmt : String) (caps : Caps) (stem outPath : String)
    (pages : List String) : List WriteEvent × Option String :=
  let body := bodyContent pages
  if fmt = "html" then
    match htmlDocOut caps.fs pages with
    | some content =>
      if caps.htmlWriteOk then
        ([⟨stem ++ ".html", .text content⟩], some (stem ++ ".html"))
      else docxTexStage ("tex") caps stem outPath pages body
    | none => docxTexStage ("tex") caps stem outPath pages body
  else if fmt = "pdf" then
    if caps.pdfBranchOk then
      ([⟨stem ++ ".docx", .docx (pdfDocOut caps.fs caps.picFail pages)⟩],
       some (stem ++ ".docx"))
    else docxTexStage ("html") caps stem outPath pages body
  else docxTexStage fmt caps stem outPath pages body

/-- `process_all_images` (lines 248-569) from the collected image files on:
with no image files it prints and returns `None` (lines 281-283), otherwise
the pages are processed and the export dispatch runs.  The result pair is
(document files written, returned value). -/
def process_all_images (imgs : List PageImage) (fmt : String) (caps : Caps)
    (stem outPath : String) : List WriteEvent × Option String :=
  if imgs = [] then ([], none)
  else exportDispatch fmt caps stem outPath (allLatexContent imgs)

/-! ### Concrete fixtures for witnesses and failing inputs -/

/-- A capability environment in which the document-writing library always
fails and no region image exists on disk. -/
def capsDocFail : Caps := ⟨true, false, false, fun _ => false, fun _ => false⟩

/-- A fully healthy capability environment. -/
def capsOk : Caps := ⟨true, true, true, fun _ => true, fun _ => false⟩

/-- A one-region page producing a non-blank body. -/
def pageHello : PageImage :=
  ⟨true, true, 100, 100, [⟨"text", [0, 0, 50, 50], "hello", Svc.exc, true⟩]⟩

/-- A second non-blank page fixture. -/
def pageWorld : PageImage :=
  ⟨true, true, 80, 80, [⟨"title", [0, 0, 40, 40], "world", Svc.exc, true⟩]⟩

/-- The failure condition of the cleanup-service call: any non-200 status, or
a transport exception / timeout. -/
def svcFailed : Svc → Prop
  | .resp status _ => status ≠ 200
  | .exc => True

/-- The clamped-crop emptiness test of line 93:
`x2 > x1 and y2 > y1` after clamping to the image bounds. -/
def cropNonempty (H W : Nat) (bbox : List Int) : Prop :=
  min (W : Int) (bbox.getD 2 0) > max 0 (bbox.getD 0 0) ∧
    min (H : Int) (bbox.getD 3 0) > max 0 (bbox.getD 1 0)

instance (H W : Nat) (bbox : List Int) : Decidable (cropNonempty H W bbox) := by
  unfold cropNonempty; infer_instance

/-! ### Helper predicates for the scanner lemmas -/

/-- Matchers that can fire only at a backslash. -/
def bsOnly (m : Chars → Option α) : Prop :=
  ∀ c cs, c ≠ '\\' → m (c :: cs) = none

/-- Character lists without a backslash. -/
def noBS (l : Chars) : Prop := '\\' ∉ l

instance (l : Chars) : Decidable (noBS l) := by
  unfold noBS; infer_instance

/-! ### Scanner lemmas -/

theorem noBS_cons_of {c : Char} {l : Chars} (hc : c ≠ '\\') (h : noBS l) :
    noBS (c :: l) := by
  intro hx
  rcases List.mem_cons.mp hx with h1 | h1
  · exact hc h1.symm
  · exact h h1

theorem noBS_head {c : Char} {l : Chars} (h : noBS (c :: l)) : c ≠ '\\' :=
  fun e => h (e ▸ List.mem_cons_self c l)

theorem noBS_tail {c : Char} {l : Chars} (h : noBS (c :: l)) : noBS l :=
  fun hx => h (List.mem_cons_of_mem _ hx)

theorem noBS_append {a b : Chars} (ha : noBS a) (hb : noBS b) : noBS (a ++ b) := by
  intro hx
  rcases List.mem_append.mp hx with h1 | h1
  · exact ha h1
  · exact hb h1

theorem reSearch_cons_none {m : Chars → Option α} {c : Char} {cs : Chars}
    (h : m (c :: cs) = none) : reSearch m (c :: cs) = reSearch m cs := by
  conv_lhs => rw [reSearch]
  rw [h]

theorem reSearch_cons_some {m : Chars → Option α} {c : Char} {cs : Chars} {r : α}
    (h : m (c :: cs) = some r) : reSearch m (c :: cs) = some r := by
  conv_lhs => rw [reSearch]
  rw [h]

theorem reSearch_skip_nb {m : Chars → Option α} (hm : bsOnly m) :
    ∀ (a b : Chars), noBS a → reSearch m (a ++ b) = reSearch m b := by
  intro a
  induction a with
  | nil => intro b _; rfl
  | cons c a ih =>
    intro b ha
    rw [List.cons_append, reSearch_cons_none (hm c _ (noBS_head ha)),
      ih b (noBS_tail ha)]

theorem reSub_cons_none {m : Matcher} {c : Char} {cs : Chars}
    (h : m (c :: cs) = none) : reSub m (c :: cs) = c :: reSub m cs := by
  conv_lhs => rw [reSub]
  rw [h]

theorem reSub_cons_fire {m : Matcher} {c : Char} {cs r rest : Chars}
    (h : m (c :: cs) = some (r, rest)) (hlen : rest.length < cs.length + 1) :
    reSub m (c :: cs) = r ++ reSub m rest := by
  conv_lhs => rw [reSub]
  rw [h]
  exact dif_pos hlen

theorem reSub_nil (m : Matcher) : reSub m [] = [] := by
  rw [reSub]

theorem reSub_nb {m : Matcher} (hm : bsOnly m) :
    ∀ l, noBS l → reSub m l = l := by
  intro l
  induction l with
  | nil => intro _; exact reSub_nil m
  | cons c cs ih =>
    intro h
    rw [reSub_cons_none (hm c _ (noBS_head h)), ih (noBS_tail h)]

theorem reSub_append_nb {m : Matcher} (hm : bsOnly m) :
    ∀ (a b : Chars), noBS a → reSub m (a ++ b) = a ++ reSub m b := by
  intro a
  induction a with
  | nil => intro b _; rfl
  | cons c a ih =>
    intro b ha
    rw [List.cons_append, reSub_cons_none (hm c _ (noBS_head ha)),
      ih b (noBS_tail ha), List.cons_append]

/-- A `re.sub` whose matcher does not fire at the single backslash of the
string leaves the string unchanged. -/
theorem reSub_single_bs_none {m : Matcher} (hm : bsOnly m) {pre post : Chars}
    {c : Char} (hpre : noBS pre) (hc : c ≠ '\\') (hpost : noBS post)
    (hnm : m ('\\' :: c :: post) = none) :
    reSub m (pre ++ '\\' :: c :: post) = pre ++ '\\' :: c :: post := by
  rw [reSub_append_nb hm _ _ hpre, reSub_cons_none hnm,
    reSub_nb hm _ (noBS_cons_of hc hpost)]

/-- A `re.sub` whose matcher fires exactly at the single backslash. -/
theorem reSub_single_bs_fire {m : Matcher} (hm : bsOnly m) {pre post r : Chars}
    {c : Char} (hpre : noBS pre) (hpost : noBS post)
    (hf : m ('\\' :: c :: post) = some (r, post)) :
    reSub m (pre ++ '\\' :: c :: post) = pre ++ r ++ post := by
  rw [reSub_append_nb hm _ _ hpre,
    reSub_cons_fire hf (by simp only [List.length_cons]; omega),
    reSub_nb hm _ hpost, List.append_assoc]

theorem matchLit_none_of_mismatch {lit s : Chars}
    (h : lit.isPrefixOf s = false) : matchLit lit s = none := by
  simp [matchLit, h]

theorem matchLit_self (lit t : Chars) : matchLit lit (lit ++ t) = some t := by
  have hp : lit.isPrefixOf (lit ++ t) = true := by
    induction lit with
    | nil => simp [List.isPrefixOf]
    | cons c l ih => simp [List.isPrefixOf, ih]
  simp [matchLit, hp]

theorem isPrefixOf_ne_head {lit : Chars} {a : Char} (hl : lit.head? = some a)
    {c : Char} (hc : a ≠ c) (cs : Chars) : lit.isPrefixOf (c :: cs) = false := by
  cases lit with
  | nil => simp at hl
  | cons b t =>
    have hb : b = a := by simpa using hl
    subst hb
    simp [List.isPrefixOf, hc]

theorem isPrefixOf_ne_second {a b c : Char} {t post : Chars} (hc : b ≠ c) :
    (a :: b :: t).isPrefixOf (a :: c :: post) = false := by
  simp [List.isPrefixOf, hc]

theorem matchEscape_bsOnly : bsOnly matchEscape := by
  intro c cs hc
  unfold matchEscape
  split
  · next heq =>
    rw [List.cons.injEq] at heq
    exact absurd heq.1 hc
  · rfl

theorem matchCmdArg_bsOnly : bsOnly matchCmdArg := by
  intro c cs hc
  unfold matchCmdArg
  split
  · next heq =>
    rw [List.cons.injEq] at heq
    exact absurd heq.1 hc
  · rfl

theorem matchCmdBare_bsOnly : bsOnly matchCmdBare := by
  intro c cs hc
  unfold matchCmdBare
  split
  · next heq =>
    rw [List.cons.injEq] at heq
    exact absurd heq.1 hc
  · rfl

theorem matchCmdArgLower_bsOnly : bsOnly matchCmdArgLower := by
  intro c cs hc
  unfold matchCmdArgLower
  split
  · next heq =>
    rw [List.cons.injEq] at heq
    exact absurd heq.1 hc
  · rfl

theorem matchNamed_bsOnly (name left right : Chars) :
    bsOnly (matchNamed name left right) := by
  intro c cs hc
  unfold matchNamed
  split
  · next heq =>
    rw [List.cons.injEq] at heq
    exact absurd heq.1 hc
  · rfl

theorem matchTbs_bsOnly : bsOnly matchTbs := by
  intro c cs hc
  unfold matchTbs
  rw [matchLit_none_of_mismatch (isPrefixOf_ne_head (by decide) hc.symm cs)]

theorem matchLitBraceArg_bsOnly {lit : Chars} (hl : lit.head? = some '\\') :
    bsOnly (matchLitBraceArg lit) := by
  intro c cs hc
  unfold matchLitBraceArg
  rw [matchLit_none_of_mismatch (isPrefixOf_ne_head hl hc.symm cs)]

theorem matchIncgArg_bsOnly : bsOnly matchIncgArg := by
  intro c cs hc
  unfold matchIncgArg
  rw [matchLit_none_of_mismatch (isPrefixOf_ne_head (by decide) hc.symm cs)]

theorem isPrefixOf_append_self (lit t : Chars) :
    lit.isPrefixOf (lit ++ t) = true := by
  induction lit with
  | nil => simp [List.isPrefixOf]
  | cons c l ih => simp [List.isPrefixOf, ih]

theorem isPrefixOf_ne_third {a b c d : Char} {t post : Chars} (hc : c ≠ d) :
    (a :: b :: c :: t).isPrefixOf (a :: b :: d :: post) = false := by
  simp [List.isPrefixOf, hc]

theorem occursIn_cons (pat : Chars) (c : Char) (cs : Chars) :
    occursIn pat (c :: cs) = (pat.isPrefixOf (c :: cs) || occursIn pat cs) :=
  rfl

theorem occursIn_append_self (pat b : Chars) :
    ∀ a, occursIn pat (a ++ (pat ++ b)) = true := by
  intro a
  induction a with
  | nil =>
    simp only [List.nil_append]
    cases pat with
    | nil =>
      cases b with
      | nil => rfl
      | cons x xs =>
        rw [List.nil_append, occursIn_cons]
        simp [List.isPrefixOf]
    | cons p ps =>
      rw [List.cons_append, occursIn_cons, ← List.cons_append,
        isPrefixOf_append_self]
      simp
  | cons x a ih =>
    rw [List.cons_append, occursIn_cons, ih]
    simp

theorem takeWhile_all_append {p : Char → Bool} {a : Chars}
    (ha : ∀ x ∈ a, p x = true) {c : Char} (hc : p c = false) (t : Chars) :
    (a ++ c :: t).takeWhile p = a := by
  induction a with
  | nil => simp [List.takeWhile_cons, hc]
  | cons x a ih =>
    rw [List.cons_append, List.takeWhile_cons,
      if_pos (ha x (List.mem_cons_self x a)),
      ih (fun y hy => ha y (List.mem_cons_of_mem _ hy))]

theorem dropWhile_all_append {p : Char → Bool} {a : Chars}
    (ha : ∀ x ∈ a, p x = true) {c : Char} (hc : p c = false) (t : Chars) :
    (a ++ c :: t).dropWhile p = c :: t := by
  induction a with
  | nil => simp [List.dropWhile_cons, hc]
  | cons x a ih =>
    rw [List.cons_append, List.dropWhile_cons,
      if_pos (ha x (List.mem_cons_self x a)),
      ih (fun y hy => ha y (List.mem_cons_of_mem _ hy))]

theorem matchBraceArg_safe {arg : Chars} (hne : arg ≠ [])
    (harg : ∀ x ∈ arg, x ≠ '\x7d') (t : Chars) :
    matchBraceArg ('\x7b' :: (arg ++ '\x7d' :: t)) = some (arg, t) := by
  simp only [matchBraceArg]
  rw [takeWhile_all_append (fun x hx => by simp [harg x hx]) (by decide) t,
    dropWhile_all_append (fun x hx => by simp [harg x hx]) (by decide) t]
  simp [hne]

theorem matchLitBraceArg_none {lit s : Chars} (h : lit.isPrefixOf s = false) :
    matchLitBraceArg lit s = none := by
  unfold matchLitBraceArg
  rw [matchLit_none_of_mismatch h]

theorem matchLitBraceArg_fire {lit arg : Chars} (hne : arg ≠ [])
    (harg : ∀ x ∈ arg, x ≠ '\x7d') (t : Chars) :
    matchLitBraceArg lit (lit ++ '\x7b' :: (arg ++ '\x7d' :: t)) = some arg := by
  simp only [matchLitBraceArg]
  rw [matchLit_self]
  simp [matchBraceArg_safe hne harg]

theorem matchIncgArg_none {s : Chars} (h : incgLit.isPrefixOf s = false) :
    matchIncgArg s = none := by
  unfold matchIncgArg
  rw [matchLit_none_of_mismatch h]

theorem matchIncgArg_fire {mid arg : Chars}
    (hmid : ∀ x ∈ mid, (x != '\x7b' && x != '\n') = true)
    (hne : arg ≠ []) (harg : ∀ x ∈ arg, x ≠ '\x7d') (t : Chars) :
    matchIncgArg (incgLit ++ (mid ++ '\x7b' :: (arg ++ '\x7d' :: t))) =
      some arg := by
  simp only [matchIncgArg, matchLit_self]
  rw [dropWhile_all_append hmid (by decide), matchBraceArg_safe hne harg]
  rfl

theorem reSearch_fire_at {m : Chars → Option α} {l : Chars} {r : α}
    (hne : l ≠ []) (h : m l = some r) : reSearch m l = some r := by
  cases l with
  | nil => exact absurd rfl hne
  | cons c cs => exact reSearch_cons_some h

/-- Decidable witness that a pattern matches at no start position inside a
concrete prefix: every window shows a mismatch within the prefix itself, so
no completion by the (possibly symbolic) suffix can produce a match. -/
def noOcc (lit a : Chars) : Prop :=
  ∀ i < a.length, ∃ j, j < lit.length ∧ i + j < a.length ∧
    a.getD (i + j) ' ' ≠ lit.getD j ' '

instance (lit a : Chars) : Decidable (noOcc lit a) := by
  unfold noOcc; infer_instance

theorem getD_of_isPrefixOf {lit s : Chars} (h : lit.isPrefixOf s = true) :
    ∀ j < lit.length, s.getD j ' ' = lit.getD j ' ' := by
  induction lit generalizing s with
  | nil => intro j hj; simp at hj
  | cons a t ih =>
    intro j hj
    cases s with
    | nil => simp [List.isPrefixOf] at h
    | cons b s' =>
      simp only [List.isPrefixOf, Bool.and_eq_true, beq_iff_eq] at h
      cases j with
      | zero => simpa using h.1.symm
      | succ j' =>
        simp only [List.getD_cons_succ]
        exact ih h.2 j' (by simpa using hj)

theorem isPrefixOf_false_of_mismatch {lit a b : Chars}
    (h : ∃ j, j < lit.length ∧ j < a.length ∧ a.getD j ' ' ≠ lit.getD j ' ') :
    lit.isPrefixOf (a ++ b) = false := by
  obtain ⟨j, hj, hja, hne⟩ := h
  by_contra hb
  rw [Bool.not_eq_false] at hb
  have h1 := getD_of_isPrefixOf hb j hj
  rw [List.getD_append _ _ _ _ hja] at h1
  exact hne h1

theorem reSearch_skip_concrete {m : Chars → Option α} {lit : Chars}
    (hm2 : ∀ s, lit.isPrefixOf s = false → m s = none) :
    ∀ (a b : Chars), noOcc lit a → reSearch m (a ++ b) = reSearch m b := by
  intro a
  induction a with
  | nil => intro b _; rfl
  | cons c a ih =>
    intro b hno
    obtain ⟨j, h1, h2, h3⟩ := hno 0 (by simp)
    simp only [Nat.zero_add] at h2 h3
    have hpf : lit.isPrefixOf ((c :: a) ++ b) = false :=
      isPrefixOf_false_of_mismatch ⟨j, h1, h2, h3⟩
    rw [List.cons_append] at hpf
    rw [List.cons_append, reSearch_cons_none (hm2 _ hpf)]
    apply ih
    intro i hi
    obtain ⟨j, g1, g2, g3⟩ := hno (i + 1) (by simp; omega)
    refine ⟨j, g1, ?_, ?_⟩
    · simp only [List.length_cons] at g2; omega
    · have e : i + 1 + j = (i + j) + 1 := by omega
      rw [e, List.getD_cons_succ] at g3
      exact g3

/-! ### The generated figure block and its re-parsing -/

/-- Constraint on the strings spliced into a figure block: non-empty and free
of backslashes, braces and newlines (all paths and captions the enricher
generates satisfy it). -/
def figSafe (s : String) : Prop :=
  s.data ≠ [] ∧ ∀ ch ∈ s.data, ch ≠ '\\' ∧ ch ≠ '\x7b' ∧ ch ≠ '\x7d' ∧ ch ≠ '\n'

theorem figSafe_noBS {s : String} (h : figSafe s) : noBS s.data :=
  fun hx => (h.2 _ hx).1 rfl

theorem figureBlock_data (rel cap : String) :
    (figureBlock rel cap).data =
      ("\n\\begin\x7bfigure\x7d[h]\n\\centering\n\\includegraphics[width=0.8\\textwidth]\x7b").data ++
        (rel.data ++ (("\x7d\n\\caption\x7b").data ++ (cap.data ++
          ("\x7d\n\\end\x7bfigure\x7d\n").data))) := by
  simp only [figureBlock, String.data_append, List.append_assoc]

/-- `re.search(r'\\includegraphics.*?\{([^}]+)\}')` on a generated figure
block captures exactly the spliced image path. -/
theorem searchIncg_figureBlock {rel cap : String} (hrel : figSafe rel) :
    searchIncgArg (figureBlock rel cap).data = some rel.data := by
  unfold searchIncgArg
  rw [figureBlock_data]
  rw [show ("\n\\begin\x7bfigure\x7d[h]\n\\centering\n\\includegraphics[width=0.8\\textwidth]\x7b").data =
      ("\n\\begin\x7bfigure\x7d[h]\n\\centering\n").data ++
        (incgLit ++ (("[width=0.8\\textwidth]").data ++ [ '\x7b' ])) from by decide]
  rw [show ("\x7d\n\\caption\x7b").data = '\x7d' :: ("\n\\caption\x7b").data from by decide]
  rw [List.append_assoc]
  rw [reSearch_skip_concrete (fun _ h => matchIncgArg_none h) _ _ (by decide)]
  rw [List.append_assoc, List.append_assoc, List.singleton_append]
  refine reSearch_fire_at ?_ ?_
  · intro hemp
    obtain ⟨h1, _⟩ := List.append_eq_nil.mp hemp
    exact absurd h1 (by decide)
  · exact matchIncgArg_fire (by decide) hrel.1
      (fun x hx => (hrel.2 x hx).2.2.1) _

/-- `re.search(r'\\caption\{([^}]+)\}')` on a generated figure block captures
exactly the spliced caption. -/
theorem searchCaption_figureBlock {rel cap : String} (hrel : figSafe rel)
    (hcap : figSafe cap) :
    searchLitArg captionLit (figureBlock rel cap).data = some cap.data := by
  unfold searchLitArg
  rw [figureBlock_data]
  rw [show ("\x7d\n\\caption\x7b").data =
      [ '\x7d', '\n' ] ++ (captionLit ++ [ '\x7b' ]) from by decide]
  rw [reSearch_skip_concrete (fun _ h => matchLitBraceArg_none h) _ _
    (by decide)]
  rw [reSearch_skip_nb (matchLitBraceArg_bsOnly (by decide)) rel.data _
    (figSafe_noBS hrel)]
  rw [List.append_assoc]
  rw [reSearch_skip_concrete (fun _ h => matchLitBraceArg_none h)
    ([ '\x7d', '\n' ]) _ (by decide)]
  rw [List.append_assoc, List.singleton_append]
  rw [show ("\x7d\n\\end\x7bfigure\x7d\n").data =
      '\x7d' :: ("\n\\end\x7bfigure\x7d\n").data from by decide]
  refine reSearch_fire_at ?_ ?_
  · intro hemp
    obtain ⟨h1, _⟩ := List.append_eq_nil.mp hemp
    exact absurd h1 (by decide)
  · exact matchLitBraceArg_fire hcap.1 (fun x hx => (hcap.2 x hx).2.2.1) _

/-! ### C5 — service failure returns the submitted text unchanged -/

/-- C5: whenever the text-cleanup service call fails (non-200 status,
exception or timeout), the enrichment returns exactly the cleaned input text
that was submitted, character for character. -/
theorem deepseek_failure_returns_input (svc : Svc) (raw : String)
    (h : svcFailed svc) :
    process_text_with_deepseek svc (clean_text_for_xml raw) =
      clean_text_for_xml raw := by
  cases svc with
  | resp status content =>
    have hs : status ≠ 200 := h
    simp [process_text_with_deepseek, hs]
  | exc => rfl

/-- C5 witness: a concrete failing call. -/
theorem deepseek_failure_returns_input_witness :
    svcFailed (Svc.resp 500 ("oops")) ∧
    process_text_with_deepseek (Svc.resp 500 ("oops")) (clean_text_for_xml "a b") =
      clean_text_for_xml "a b" :=
  ⟨by simp [svcFailed], deepseek_failure_returns_input _ _ (by simp [svcFailed])⟩

/-! ### C7 — control characters are stripped before submission -/

/-- C7: for a text/title region with non-blank OCR text, the enrichment
submits `clean_text_for_xml` of the raw text to the service — the submitted
text contains no codepoint in 0x00-0x08, 0x0B-0x0C or 0x0E-0x1F — and the
stripping happens before submission: the region's fragment is the service
call applied to the cleaned text. -/
theorem cleaned_text_submitted (H W pageIdx regionIdx : Nat) (r : Region)
    (rest : List Region)
    (hty : r.rtype = "text" ∨ r.rtype = "title")
    (hlen : 4 ≤ r.bbox.length)
    (hnb : pyStrip r.rawText ≠ "") :
    (∀ c ∈ (clean_text_for_xml r.rawText).data,
      ¬ (c.toNat ≤ 8 ∨ c.toNat = 11 ∨ c.toNat = 12 ∨
          (14 ≤ c.toNat ∧ c.toNat ≤ 31))) ∧
    processRegions H W pageIdx (r :: rest) regionIdx =
      process_text_with_deepseek r.svc (clean_text_for_xml r.rawText) ::
        processRegions H W pageIdx rest regionIdx := by
  constructor
  · intro c hc
    have hmem := (List.mem_filter.mp hc).2
    simp only [strippedCtl, Bool.not_eq_true', Bool.or_eq_false_iff,
      Bool.and_eq_false_iff, decide_eq_false_iff_not, decide_eq_true_eq,
      not_le, not_lt] at hmem
    omega
  · have hl : ¬ r.bbox.length < 4 := by omega
    rcases hty with h | h <;>
      simp [processRegions, hl, h, hnb]

/-- C7 witness: a concrete raw text containing control characters. -/
theorem cleaned_text_submitted_witness :
    (∀ c ∈ (clean_text_for_xml "a\x01b\x0bc").data,
      ¬ (c.toNat ≤ 8 ∨ c.toNat = 11 ∨ c.toNat = 12 ∨
          (14 ≤ c.toNat ∧ c.toNat ≤ 31))) ∧
    processRegions 10 10 1 ([⟨"text", [0, 0, 5, 5], "a\x01b\x0bc", Svc.exc, true⟩]) 0 =
      process_text_with_deepseek Svc.exc (clean_text_for_xml "a\x01b\x0bc") ::
        processRegions 10 10 1 [] 0 :=
  cleaned_text_submitted 10 10 1 0
    ⟨"text", [0, 0, 5, 5], "a\x01b\x0bc", Svc.exc, true⟩ []
    (by decide) (by decide) (by decide)

/-! ### C9 — the tex stage writes the body verbatim -/

/-- C9: requesting `tex` re-parses nothing — the written `.tex` file is the
page bodies joined by the page-break marker, verbatim between the fixed
preamble and postamble, the companion `.tex.content` file is exactly that
body with no preamble, and the `.tex` path is returned. -/
theorem tex_export_verbatim (imgs : List PageImage) (caps : Caps)
    (stem outPath : String) (h : imgs ≠ []) :
    process_all_images imgs "tex" caps stem outPath =
      ([⟨stem ++ ".tex",
          .text (texPre ++ bodyContent (allLatexContent imgs) ++ texPost)⟩,
        ⟨stem ++ ".tex.content", .text (bodyContent (allLatexContent imgs))⟩],
       some (stem ++ ".tex")) := by
  unfold process_all_images
  rw [if_neg h]
  rfl

/-- C9 witness. -/
theorem tex_export_verbatim_witness :
    process_all_images [pageHello] "tex" capsOk ("out") ("out.tex") =
      ([⟨"out" ++ ".tex",
          .text (texPre ++ bodyContent (allLatexContent [pageHello]) ++ texPost)⟩,
        ⟨"out" ++ ".tex.content", .text (bodyContent (allLatexContent [pageHello]))⟩],
       some ("out" ++ ".tex")) :=
  tex_export_verbatim [pageHello] capsOk ("out") ("out.tex") (by decide)

/-! ### C10 — unknown formats write nothing and return None -/

/-- C10: with a non-empty image set, any requested format outside
{html, pdf, docx, tex} makes the export write no output document file at all
and return `None`, neither defaulting to a format nor raising. -/
theorem unknown_format_noop (imgs : List PageImage) (fmt : String) (caps : Caps)
    (stem outPath : String)
    (hf : fmt ≠ "html" ∧ fmt ≠ "pdf" ∧ fmt ≠ "docx" ∧ fmt ≠ "tex")
    (hi : imgs ≠ []) :
    process_all_images imgs fmt caps stem outPath = ([], none) := by
  obtain ⟨h1, h2, h3, h4⟩ := hf
  unfold process_all_images exportDispatch docxTexStage
  rw [if_neg hi]
  simp only [if_neg h1, if_neg h2, if_neg h3, if_neg h4]

/-- C10 witness: the format string `md`. -/
theorem unknown_format_noop_witness :
    process_all_images [pageHello] "md" capsOk ("out") ("out.md") = ([], none) :=
  unknown_format_noop [pageHello] "md" capsOk ("out") ("out.md")
    (by exact ⟨by decide, by decide, by decide, by decide⟩) (by decide)

/-! ### C1 — the pdf fallback dead-ends instead of producing html -/

/-- C1 (failing input): one non-blank page, document-writing capability
always failing.  Requesting `pdf` writes nothing and returns `None` — not a
`.html` file: after line 417 assigns `output_format = 'html'`, control can
only reach the two trailing `if` statements (docx, tex), which match
neither, even though line 416 printed that HTML would be generated.
Requesting `docx` under the same conditions does fall back to `.tex`. -/
theorem pdf_fallback_dead_end :
    allLatexContent [pageHello] ≠ [] ∧
    process_all_images [pageHello] "pdf" capsDocFail ("out") ("out.pdf") =
      ([], none) ∧
    (process_all_images [pageHello] "docx" capsDocFail ("out") ("out.docx")).2 =
      some ("out" ++ ".tex") :=
  ⟨by decide, rfl, rfl⟩

/-! ### C2 — the export can return None after a non-empty run -/

/-- C2 (failing input): a run over a non-empty image set with a non-blank
body returns `None` and produces no file when `pdf` is requested and the
document-writing capability fails — the export does not always return the
path of a produced file. -/
theorem export_returns_none_despite_images :
    allLatexContent [pageWorld] ≠ [] ∧
    process_all_images [pageWorld] "pdf" capsDocFail ("doc") ("doc.pdf") =
      ([], none) :=
  ⟨by decide, rfl⟩

/-! ### C8 — failed visual regions are skipped, the page continues -/

/-- `save_region_image` yields `None` on an empty clamped crop or a failing
write. -/
theorem save_region_image_none (H W : Nat) (bbox : List Int) (writeOk : Bool)
    (ty : String) (pi ri : Nat)
    (h : ¬ cropNonempty H W bbox ∨ writeOk = false) :
    save_region_image H W bbox writeOk ty pi ri = none := by
  by_cases hl : bbox.length = 4
  · rcases h with h | h
    · have h' : ¬ (min (W : Int) (bbox.getD 2 0) > max 0 (bbox.getD 0 0) ∧
          min (H : Int) (bbox.getD 3 0) > max 0 (bbox.getD 1 0)) := by
        simpa [cropNonempty] using h
      simp only [save_region_image]
      rw [if_pos hl, if_neg h']
    · subst h
      simp [save_region_image, hl]
  · simp [save_region_image, hl]

/-- C8: a visual region (table, figure, image or formula) whose bbox clamps
to an empty crop, or whose image write fails, contributes no fragment, and
the rest of the page is processed exactly as before (with `region_index`
advanced) — the page is never aborted. -/
theorem failed_visual_region_skipped (H W pageIdx regionIdx : Nat) (r : Region)
    (rest : List Region)
    (hty : r.rtype = "table" ∨ r.rtype = "figure" ∨ r.rtype = "image" ∨
      r.rtype = "formula")
    (hlen : r.bbox.length = 4)
    (hfail : ¬ cropNonempty H W r.bbox ∨ r.writeOk = false) :
    processRegions H W pageIdx (r :: rest) regionIdx =
      processRegions H W pageIdx rest (regionIdx + 1) := by
  have hl : ¬ r.bbox.length < 4 := by omega
  have hs := save_region_image_none H W r.bbox r.writeOk
  rcases hty with h | h | h | h <;>
    simp [processRegions, hl, h, hs _ _ _ hfail]

/-- C8 witness: a degenerate table bbox. -/
theorem failed_visual_region_skipped_witness :
    processRegions 10 10 1 ([⟨"table", [5, 5, 2, 2], "", Svc.exc, true⟩]) 0 =
      processRegions 10 10 1 [] 1 :=
  failed_visual_region_skipped 10 10 1 0
    ⟨"table", [5, 5, 2, 2], "", Svc.exc, true⟩ []
    (by decide) (by decide) (by decide)

/-! ### C4 — regions are assembled in reading order, stably -/

/-- C4: for any extraction order of regions with well-formed bounding boxes,
the list the page body is assembled from is a permutation of the extracted
regions, sorted by top-edge y-coordinate then left-edge x-coordinate, and
regions with equal coordinates keep their original extraction order (the
filter at any fixed key is unchanged). -/
theorem sort_regions_reading_order (l : List Region)
    (h : ∀ r ∈ l, 4 ≤ r.bbox.length) :
    (sortRegions l).Perm l ∧
    (sortRegions l).Pairwise (fun a b =>
      a.bbox.getD 1 0 < b.bbox.getD 1 0 ∨
        (a.bbox.getD 1 0 = b.bbox.getD 1 0 ∧ a.bbox.getD 0 0 ≤ b.bbox.getD 0 0)) ∧
    (∀ y x : Int,
      (sortRegions l).filter
          (fun r => r.bbox.getD 1 0 == y && r.bbox.getD 0 0 == x) =
        l.filter (fun r => r.bbox.getD 1 0 == y && r.bbox.getD 0 0 == x)) := by
  have hk : ∀ r ∈ l, bby r = r.bbox.getD 1 0 ∧ bbx r = r.bbox.getD 0 0 := by
    intro r hr
    have h4 := h r hr
    constructor
    · simp only [bby, if_pos (by omega : 2 ≤ r.bbox.length)]
    · simp only [bbx, if_pos (by omega : 1 ≤ r.bbox.length)]
  have hperm : (sortRegions l).Perm l := List.perm_insertionSort regionLe l
  refine ⟨hperm, ?_, ?_⟩
  · have hs : (sortRegions l).Pairwise regionLe :=
      List.sorted_insertionSort regionLe l
    refine hs.imp_of_mem ?_
    intro a b ha hb hab
    have hka := hk a (hperm.mem_iff.mp ha)
    have hkb := hk b (hperm.mem_iff.mp hb)
    rw [regionLe, hka.1, hka.2, hkb.1, hkb.2] at hab
    exact hab
  · intro y x
    set p : Region → Bool :=
      fun r => r.bbox.getD 1 0 == y && r.bbox.getD 0 0 == x with hp
    have hcp : (l.filter p).Pairwise regionLe := by
      refine List.pairwise_of_forall_mem_list ?_
      intro a ha b hb
      have hka := hk a (List.mem_of_mem_filter ha)
      have hkb := hk b (List.mem_of_mem_filter hb)
      have hpa := List.of_mem_filter ha
      have hpb := List.of_mem_filter hb
      simp only [hp, Bool.and_eq_true, beq_iff_eq] at hpa hpb
      right
      constructor
      · rw [hka.1, hkb.1, hpa.1, hpb.1]
      · rw [hka.2, hkb.2, hpa.2, hpb.2]
    have h1 : List.Sublist (l.filter p) (sortRegions l) :=
      List.sublist_insertionSort hcp (List.filter_sublist l)
    have h1f := List.Sublist.filter p h1
    have he : (l.filter p).filter p = l.filter p :=
      List.filter_eq_self.mpr (fun a ha => List.of_mem_filter ha)
    rw [he] at h1f
    have h3 : ((sortRegions l).filter p).length = (l.filter p).length :=
      (hperm.filter p).length_eq
    exact (h1f.eq_of_length h3.symm).symm

/-- C4 witness: three regions extracted out of order, two sharing a key. -/
theorem sort_regions_reading_order_witness :
    (sortRegions [⟨"b", [4, 9, 9, 9], "", Svc.exc, true⟩,
        ⟨"a", [1, 2, 9, 9], "", Svc.exc, true⟩,
        ⟨"c", [1, 2, 8, 8], "", Svc.exc, true⟩]).Perm
      [⟨"b", [4, 9, 9, 9], "", Svc.exc, true⟩,
        ⟨"a", [1, 2, 9, 9], "", Svc.exc, true⟩,
        ⟨"c", [1, 2, 8, 8], "", Svc.exc, true⟩] ∧
    (sortRegions [⟨"b", [4, 9, 9, 9], "", Svc.exc, true⟩,
        ⟨"a", [1, 2, 9, 9], "", Svc.exc, true⟩,
        ⟨"c", [1, 2, 8, 8], "", Svc.exc, true⟩]).Pairwise (fun a b =>
      a.bbox.getD 1 0 < b.bbox.getD 1 0 ∨
        (a.bbox.getD 1 0 = b.bbox.getD 1 0 ∧ a.bbox.getD 0 0 ≤ b.bbox.getD 0 0)) ∧
    (∀ y x : Int,
      (sortRegions [⟨"b", [4, 9, 9, 9], "", Svc.exc, true⟩,
          ⟨"a", [1, 2, 9, 9], "", Svc.exc, true⟩,
          ⟨"c", [1, 2, 8, 8], "", Svc.exc, true⟩]).filter
          (fun r => r.bbox.getD 1 0 == y && r.bbox.getD 0 0 == x) =
        [⟨"b", [4, 9, 9, 9], "", Svc.exc, true⟩,
          ⟨"a", [1, 2, 9, 9], "", Svc.exc, true⟩,
          ⟨"c", [1, 2, 8, 8], "", Svc.exc, true⟩].filter
          (fun r => r.bbox.getD 1 0 == y && r.bbox.getD 0 0 == x)) :=
  sort_regions_reading_order _ (by decide)

/-! ### C3 — missing image file: html keeps the caption, docx and pdf do not -/

theorem stringEta (s : String) : String.mk s.data = s := rfl

theorem pyStripL_ne_nil_of_mem {l : Chars} {c : Char} (hc : c ∈ l)
    (hw : pyWs c = false) : pyStripL l ≠ [] := by
  intro h
  unfold pyStripL at h
  rw [List.reverse_eq_nil_iff, List.dropWhile_eq_nil_iff] at h
  have hcd : c ∈ l.dropWhile pyWs := by
    have ht := List.takeWhile_append_dropWhile (p := pyWs) (l := l)
    rcases List.mem_append.mp (ht ▸ hc) with h1 | h1
    · have := List.mem_takeWhile_imp h1
      rw [hw] at this
      exact absurd this (by simp)
    · exact h1
  have := h c (List.mem_reverse.mpr hcd)
  rw [hw] at this
  exact absurd this (by simp)

/-- C3 counterexample: the caption `表格` is present in the generated figure
block, yet the docx path emits nothing at all for it when the referenced
image file does not exist — the caption is not emitted, contradicting the
claim for the docx path. -/
theorem docx_missing_image_drops_caption :
    searchLitArg captionLit
        (figureBlock ("table/page_1_region_0.jpg") ("表格")).data =
      some ("表格").data ∧
    docxBlockOut (fun _ => false) (fun _ => false)
        (figureBlock ("table/page_1_region_0.jpg") ("表格")).data = [] :=
  ⟨rfl, rfl⟩

/-- C3 (amended): for a figure block whose referenced image file does not
exist, no embedded image is emitted in any of the three paths and the
document is not failed; the caption is still emitted in the html path, but
the docx path emits neither image nor caption (its caption handling sits
inside the `img_path.exists()` branch, lines 456-463), and the pdf path
never emits captions at all (lines 388-397). -/
theorem figure_block_missing_image (rel cap : String) (fs picFail : String → Bool)
    (hrel : figSafe rel) (hcap : figSafe cap) (hfs : fs rel = false) :
    htmlBlockOut fs (figureBlock rel cap).data =
      some ["<p style=\"text-align:center;font-style:italic;color:#666\">" ++
        cap ++ "</p>\n"] ∧
    docxBlockOut fs picFail (figureBlock rel cap).data = [] ∧
    pdfBlockOut fs picFail (figureBlock rel cap).data = [] := by
  have hne : pyStripL (figureBlock rel cap).data ≠ [] := by
    refine pyStripL_ne_nil_of_mem (c := 'b') ?_ (by decide)
    rw [figureBlock_data]
    exact List.mem_append_left _ (by decide)
  have hocc : occursIn beginFigLit (figureBlock rel cap).data = true := by
    rw [figureBlock_data]
    rw [show ("\n\\begin\x7bfigure\x7d[h]\n\\centering\n\\includegraphics[width=0.8\\textwidth]\x7b").data =
        [ '\n' ] ++ (beginFigLit ++
          ("[h]\n\\centering\n\\includegraphics[width=0.8\\textwidth]\x7b").data)
      from by decide]
    rw [List.append_assoc, List.append_assoc]
    exact occursIn_append_self _ _ _
  refine ⟨?_, ?_, ?_⟩
  · unfold htmlBlockOut htmlFigureParts
    rw [if_neg hne, if_pos hocc, searchIncg_figureBlock hrel,
      searchCaption_figureBlock hrel hcap]
    simp [stringEta, hfs]
  · unfold docxBlockOut docxFigureParts
    rw [if_neg hne, if_pos hocc, searchIncg_figureBlock hrel]
    simp [stringEta, hfs]
  · unfold pdfBlockOut pdfFigureParts
    rw [if_neg hne, if_pos hocc, searchIncg_figureBlock hrel]
    simp [stringEta, hfs]

/-- C3 witness: a concrete missing image. -/
theorem figure_block_missing_image_witness :
    htmlBlockOut (fun _ => false) (figureBlock ("a/b.jpg") ("图")).data =
      some ["<p style=\"text-align:center;font-style:italic;color:#666\">" ++
        "图" ++ "</p>\n"] ∧
    docxBlockOut (fun _ => false) (fun _ => false)
        (figureBlock ("a/b.jpg") ("图")).data = [] ∧
    pdfBlockOut (fun _ => false) (fun _ => false)
        (figureBlock ("a/b.jpg") ("图")).data = [] :=
  figure_block_missing_image ("a/b.jpg") ("图") (fun _ => false) (fun _ => false)
    ⟨by decide, by decide⟩ ⟨by decide, by decide⟩ rfl

/-! ### C6 — escaped special characters across the three renderers -/

theorem matchEscape_fire {c : Char} (hc : c ∈ specialsEsc) (post : Chars) :
    matchEscape ('\\' :: c :: post) = some ([c], post) := by
  simp only [specialsEsc, List.mem_cons, List.not_mem_nil, or_false] at hc
  rcases hc with rfl | rfl | rfl | rfl | rfl | rfl | rfl <;> rfl

theorem specialsFacts {c : Char} (h : c ∈ specialsEsc) :
    c ≠ '\\' ∧ c ≠ 't' ∧ c ≠ 'e' ∧ c ≠ 'b' ∧ c.isAlpha = false ∧
      c.isLower = false ∧ pyWs c = false := by
  simp only [specialsEsc, List.mem_cons, List.not_mem_nil, or_false] at h
  rcases h with rfl | rfl | rfl | rfl | rfl | rfl | rfl <;> decide

theorem matchNamed_none_bs {name left right : Chars} {n0 : Char}
    (hn : name.head? = some n0) {c : Char} (hc : c ≠ n0) (post : Chars) :
    matchNamed name left right ('\\' :: c :: post) = none := by
  simp only [matchNamed]
  rw [matchLit_none_of_mismatch (isPrefixOf_ne_head hn (Ne.symm hc) post)]

theorem matchCmdArg_none_notAlpha {c : Char} (hc : c.isAlpha = false)
    (post : Chars) : matchCmdArg ('\\' :: c :: post) = none := by
  simp [matchCmdArg, List.takeWhile_cons, hc]

theorem matchCmdBare_none_notAlpha {c : Char} (hc : c.isAlpha = false)
    (post : Chars) : matchCmdBare ('\\' :: c :: post) = none := by
  simp [matchCmdBare, List.takeWhile_cons, hc]

theorem matchCmdArgLower_none_notLower {c : Char} (hc : c.isLower = false)
    (post : Chars) : matchCmdArgLower ('\\' :: c :: post) = none := by
  simp [matchCmdArgLower, List.takeWhile_cons, hc]

theorem matchTbs_none_bs {c : Char} (hc : c ≠ 't') (post : Chars) :
    matchTbs ('\\' :: c :: post) = none := by
  unfold matchTbs
  rw [matchLit_none_of_mismatch (by
    rw [show textbackslashLit = '\\' :: 't' :: ("extbackslash").data from by decide]
    exact isPrefixOf_ne_second (Ne.symm hc))]

theorem occursIn_bs_nb {pt l : Chars} (h : noBS l) :
    occursIn ('\\' :: pt) l = false := by
  induction l with
  | nil => rfl
  | cons x xs ih =>
    rw [occursIn_cons, ih (noBS_tail h),
      @isPrefixOf_ne_head ('\\' :: pt) '\\' rfl x (Ne.symm (noBS_head h)) xs]
    rfl

theorem occursIn_bsPat_single {p2 : Char} {pt : Chars} {pre post : Chars}
    {c : Char} (hpre : noBS pre) (hpost : noBS post) (hc : c ≠ p2)
    (hcb : c ≠ '\\') :
    occursIn ('\\' :: p2 :: pt) (pre ++ '\\' :: c :: post) = false := by
  induction pre with
  | nil =>
    rw [List.nil_append, occursIn_cons,
      isPrefixOf_ne_second (Ne.symm hc),
      occursIn_bs_nb (noBS_cons_of hcb hpost)]
    rfl
  | cons x pre ih =>
    rw [List.cons_append, occursIn_cons, ih (noBS_tail hpre),
      @isPrefixOf_ne_head ('\\' :: p2 :: pt) '\\' rfl x
        (Ne.symm (noBS_head hpre)) _]
    rfl

theorem startsW_bs_false {p0 : Char} (hp0 : p0 ≠ '\\') (t : Chars) :
    startsW bsLit (p0 :: t) = false := by
  rw [show bsLit = [ '\\' ] from by decide]
  simp [startsW, List.isPrefixOf, Ne.symm hp0]

theorem startsW_pipe_false {p0 : Char} (hp0 : p0 ≠ '|') (t : Chars) :
    startsW pipeLit (p0 :: t) = false := by
  rw [show pipeLit = [ '|' ] from by decide]
  simp [startsW, List.isPrefixOf, Ne.symm hp0]

theorem startsW_bs_true (t : Chars) : startsW bsLit ('\\' :: t) = true := by
  rw [show bsLit = [ '\\' ] from by decide]
  simp [startsW, List.isPrefixOf]

theorem startsW_text_false {c : Char} (hc : c ≠ 't') (t : Chars) :
    startsW textLit ('\\' :: c :: t) = false := by
  rw [show textLit = '\\' :: 't' :: ("ext").data from by decide]
  exact isPrefixOf_ne_second (Ne.symm hc)

theorem dropWhile_head_false {p : Char → Bool} {c : Char} {l : Chars}
    (h : (c :: l).dropWhile p = c :: l) : p c = false := by
  by_contra hb
  rw [Bool.not_eq_false] at hb
  rw [List.dropWhile_cons, if_pos hb] at h
  have h1 : (l.dropWhile p).length ≤ l.length :=
    (List.dropWhile_sublist p).length_le
  rw [h] at h1
  simp at h1

theorem pyStripL_eq_self_of {l : Chars}
    (h1 : ∀ c, l.head? = some c → pyWs c = false)
    (h2 : ∀ c, l.getLast? = some c → pyWs c = false) :
    pyStripL l = l := by
  cases l with
  | nil => rfl
  | cons a t =>
    unfold pyStripL
    rw [List.dropWhile_cons, if_neg (by rw [h1 a rfl]; simp)]
    cases hr : (a :: t).reverse with
    | nil => exact absurd hr (by simp)
    | cons b rb =>
      have hb : (a :: t).getLast? = some b := by
        rw [← List.head?_reverse, hr]; rfl
      rw [List.dropWhile_cons, if_neg (by rw [h2 b hb]; simp), ← hr,
        List.reverse_reverse]

theorem pyStripL_head {l : Chars} (h : pyStripL l = l) {c : Char} {t : Chars}
    (he : l = c :: t) : pyWs c = false := by
  subst he
  by_contra hb
  rw [Bool.not_eq_false] at hb
  have hlen : (pyStripL (c :: t)).length ≤ t.length := by
    unfold pyStripL
    rw [List.dropWhile_cons, if_pos hb]
    calc (((t.dropWhile pyWs).reverse.dropWhile pyWs).reverse).length
        = ((t.dropWhile pyWs).reverse.dropWhile pyWs).length :=
          List.length_reverse _
      _ ≤ (t.dropWhile pyWs).reverse.length :=
          (List.dropWhile_sublist _).length_le
      _ = (t.dropWhile pyWs).length := List.length_reverse _
      _ ≤ t.length := (List.dropWhile_sublist _).length_le
  rw [h] at hlen
  simp at hlen

theorem pyStripL_last {l : Chars} (h : pyStripL l = l) {c : Char}
    (he : l.getLast? = some c) : pyWs c = false := by
  have e2 : (l.dropWhile pyWs).length ≤ l.length :=
    (List.dropWhile_sublist _).length_le
  have e1 : l.length ≤ (l.dropWhile pyWs).length := by
    conv_lhs => rw [← h]
    unfold pyStripL
    calc (((l.dropWhile pyWs).reverse.dropWhile pyWs).reverse).length
        = ((l.dropWhile pyWs).reverse.dropWhile pyWs).length :=
          List.length_reverse _
      _ ≤ (l.dropWhile pyWs).reverse.length :=
          (List.dropWhile_sublist _).length_le
      _ = (l.dropWhile pyWs).length := List.length_reverse _
  have hd : l.dropWhile pyWs = l :=
    (List.dropWhile_sublist pyWs).eq_of_length (by omega)
  have h2 : (l.reverse.dropWhile pyWs).reverse = l := by
    have hcopy := h
    unfold pyStripL at hcopy
    rwa [hd] at hcopy
  have h3 : l.reverse.dropWhile pyWs = l.reverse := by
    have := congrArg List.reverse h2
    rwa [List.reverse_reverse] at this
  cases hr : l.reverse with
  | nil =>
    rw [List.reverse_eq_nil_iff] at hr
    subst hr
    simp at he
  | cons b rb =>
    have hb : b = c := by
      have hh := List.head?_reverse l
      rw [hr, he] at hh
      simpa using hh
    subst hb
    rw [hr] at h3
    exact dropWhile_head_false h3

/-- C6 (amended): for a text line `pre\𝑐post` carrying a single escaped
special character `𝑐 ∈ {& % $ # _ { }}` and no other backslash, with a
non-blank prefix not itself starting with a backslash or a table pipe: the
html path renders nothing — the line reaches line 348, whose
`re.sub(r'\\textbackslash', '\\', text)` carries a malformed replacement
string that CPython parses eagerly, so the call raises `re.error` on every
such line and aborts the html generation (line 361 then falls back to
LaTeX); the docx path renders the literal character (the escape is
unescaped, line 505); the pdf path emits the line verbatim with the escape
sequence intact (it never unescapes, lines 402-408); and a line that
begins with the escape sequence is dropped by all three paths (the
`startswith('\\')` guards of lines 343, 489 and 404), so it does not
trigger the html raise either. -/
theorem escape_rendering (p0 : Char) (pre post : Chars) (c : Char)
    (hc : c ∈ specialsEsc) (hp0 : p0 ≠ '\\') (hp0p : p0 ≠ '|')
    (hpre : noBS pre) (hpost : noBS post)
    (hstrip : pyStripL ((p0 :: pre) ++ '\\' :: c :: post) =
      (p0 :: pre) ++ '\\' :: c :: post) :
    htmlLineOut ((p0 :: pre) ++ '\\' :: c :: post) = none ∧
    docxLineOut ((p0 :: pre) ++ '\\' :: c :: post) =
      [.par (String.mk ((p0 :: pre) ++ c :: post))] ∧
    pdfLineOut ((p0 :: pre) ++ '\\' :: c :: post) =
      [.par (String.mk ((p0 :: pre) ++ '\\' :: c :: post))] ∧
    htmlLineOut ('\\' :: c :: post) = some [] ∧
    docxLineOut ('\\' :: c :: post) = [] ∧
    pdfLineOut ('\\' :: c :: post) = [] := by
  obtain ⟨hcbs, hct, hce, hcb, hcA, hcL, hcW⟩ := specialsFacts hc
  have hpre0 : noBS (p0 :: pre) := noBS_cons_of hp0 hpre
  have hpostc : noBS (c :: post) := noBS_cons_of hcbs hpost
  have hU : noBS ((p0 :: pre) ++ c :: post) := noBS_append hpre0 hpostc
  have hLne : ¬ ((p0 :: pre) ++ '\\' :: c :: post = []) := by simp
  have hUne : ¬ ((p0 :: pre) ++ c :: post = []) := by simp
  have hp0w : pyWs p0 = false :=
    pyStripL_head hstrip (List.cons_append p0 pre _)
  have hUstrip : pyStripL ((p0 :: pre) ++ c :: post) =
      (p0 :: pre) ++ c :: post := by
    apply pyStripL_eq_self_of
    · intro d hd
      rw [List.cons_append] at hd
      simp only [List.head?_cons, Option.some.injEq] at hd
      rw [← hd]
      exact hp0w
    · intro d hd
      apply pyStripL_last hstrip
      rw [List.getLast?_append, List.getLast?_cons_cons]
      rw [List.getLast?_append] at hd
      exact hd
  have hDstrip : pyStripL ('\\' :: c :: post) = '\\' :: c :: post := by
    apply pyStripL_eq_self_of
    · intro d hd
      simp only [List.head?_cons, Option.some.injEq] at hd
      rw [← hd]
      decide
    · intro d hd
      apply pyStripL_last hstrip
      rw [List.getLast?_append, List.getLast?_cons_cons]
      rw [List.getLast?_cons_cons] at hd
      rw [hd]
      rfl
  have hsb : startsW bsLit ((p0 :: pre) ++ '\\' :: c :: post) = false := by
    rw [List.cons_append]
    exact startsW_bs_false hp0 _
  have hpipe : startsW pipeLit ((p0 :: pre) ++ '\\' :: c :: post) = false := by
    rw [List.cons_append]
    exact startsW_pipe_false hp0p _
  have htable : occursIn beginTableLit ((p0 :: pre) ++ '\\' :: c :: post) =
      false := by
    rw [show beginTableLit = '\\' :: 'b' :: ("egin\x7btable\x7d").data from by decide]
    exact occursIn_bsPat_single hpre0 hpost hcb hcbs
  have hbf2 : reSub (matchNamed (("textbf").data) [] [])
      ((p0 :: pre) ++ '\\' :: c :: post) =
      (p0 :: pre) ++ '\\' :: c :: post :=
    reSub_single_bs_none (matchNamed_bsOnly _ _ _) hpre0 hcbs hpost
      (matchNamed_none_bs (by decide) hct post)
  have hit2 : reSub (matchNamed (("textit").data) [] [])
      ((p0 :: pre) ++ '\\' :: c :: post) =
      (p0 :: pre) ++ '\\' :: c :: post :=
    reSub_single_bs_none (matchNamed_bsOnly _ _ _) hpre0 hcbs hpost
      (matchNamed_none_bs (by decide) hct post)
  have hem : reSub (matchNamed (("emph").data) [] [])
      ((p0 :: pre) ++ '\\' :: c :: post) =
      (p0 :: pre) ++ '\\' :: c :: post :=
    reSub_single_bs_none (matchNamed_bsOnly _ _ _) hpre0 hcbs hpost
      (matchNamed_none_bs (by decide) hce post)
  have htx : reSub (matchNamed (("text").data) [] [])
      ((p0 :: pre) ++ '\\' :: c :: post) =
      (p0 :: pre) ++ '\\' :: c :: post :=
    reSub_single_bs_none (matchNamed_bsOnly _ _ _) hpre0 hcbs hpost
      (matchNamed_none_bs (by decide) hct post)
  have hesc : subEscape ((p0 :: pre) ++ '\\' :: c :: post) =
      (p0 :: pre) ++ c :: post := by
    unfold subEscape
    rw [reSub_single_bs_fire matchEscape_bsOnly hpre0 hpost
      (matchEscape_fire hc post)]
    simp
  have htbs2 : subTbs ((p0 :: pre) ++ c :: post) = (p0 :: pre) ++ c :: post := by
    unfold subTbs
    exact reSub_nb matchTbs_bsOnly _ hU
  have hca : subCmdArg ((p0 :: pre) ++ c :: post) = (p0 :: pre) ++ c :: post := by
    unfold subCmdArg
    exact reSub_nb matchCmdArg_bsOnly _ hU
  have hcbr : subCmdBare ((p0 :: pre) ++ c :: post) = (p0 :: pre) ++ c :: post := by
    unfold subCmdBare
    exact reSub_nb matchCmdBare_bsOnly _ hU
  have hcaL : subCmdArg ((p0 :: pre) ++ '\\' :: c :: post) =
      (p0 :: pre) ++ '\\' :: c :: post := by
    unfold subCmdArg
    exact reSub_single_bs_none matchCmdArg_bsOnly hpre0 hcbs hpost
      (matchCmdArg_none_notAlpha hcA post)
  have hcbrL : subCmdBare ((p0 :: pre) ++ '\\' :: c :: post) =
      (p0 :: pre) ++ '\\' :: c :: post := by
    unfold subCmdBare
    exact reSub_single_bs_none matchCmdBare_bsOnly hpre0 hcbs hpost
      (matchCmdBare_none_notAlpha hcA post)
  have hDne : ¬ (('\\' : Char) :: c :: post = []) := by simp
  have hsbD : startsW bsLit ('\\' :: c :: post) = true := startsW_bs_true _
  have htD : startsW textLit ('\\' :: c :: post) = false :=
    startsW_text_false hct _
  refine ⟨?_, ?_, ?_, ?_, ?_, ?_⟩
  · simp only [htmlLineOut, hstrip, hLne, if_false, hsb, Bool.false_and,
      Bool.false_eq_true, ite_false]
  · simp only [docxLineOut, hstrip, hLne, if_false, hsb, Bool.false_and,
      Bool.false_eq_true, hpipe, htable, Bool.false_or, hbf2, hit2, hem, htx,
      hesc, htbs2, hca, hcbr, hUstrip, hUne, ite_false, ite_true]
  · simp only [pdfLineOut, hstrip]
    rw [if_pos (by rw [hsb]; simp [hLne])]
    rw [hcaL, hcbrL, hstrip, if_neg hLne]
  · simp only [htmlLineOut, hDstrip, hDne, if_false, hsbD, htD,
      Bool.not_false, Bool.and_true, if_true, ite_true, ite_false]
  · simp only [docxLineOut, hDstrip, hDne, if_false, hsbD, htD,
      Bool.not_false, Bool.and_true, if_true, ite_true, ite_false]
  · simp only [pdfLineOut, hDstrip, hDne, hsbD, Bool.not_true,
      Bool.and_false, ite_false]
    rw [if_neg (by simp)]

/-- C6 counterexample: the pdf export path never unescapes — the line
`价格上涨50\%` is emitted with the escape sequence `\%` intact rather than as
the literal `%` the claim requires. -/
theorem pdf_keeps_escape_verbatim :
    pdfLineOut (("价格上涨50\\%").data) =
      [.par (String.mk (("价格上涨50").data ++ '\\' :: '%' :: []))] ∧
    String.mk (("价格上涨50").data ++ '\\' :: '%' :: []) ≠ ("价格上涨50%") := by
  constructor
  · have e : ("价格上涨50\\%").data =
        ("价格上涨50").data ++ '\\' :: '%' :: [] := by decide
    rw [e]
    have h1 : pyStripL (("价格上涨50").data ++ '\\' :: '%' :: []) =
        ("价格上涨50").data ++ '\\' :: '%' :: [] := by decide
    have hca' : subCmdArg (("价格上涨50").data ++ '\\' :: '%' :: []) =
        ("价格上涨50").data ++ '\\' :: '%' :: [] := by
      unfold subCmdArg
      exact reSub_single_bs_none matchCmdArg_bsOnly (by decide) (by decide)
        (by decide) (matchCmdArg_none_notAlpha (by decide) [])
    have hcb' : subCmdBare (("价格上涨50").data ++ '\\' :: '%' :: []) =
        ("价格上涨50").data ++ '\\' :: '%' :: [] := by
      unfold subCmdBare
      exact reSub_single_bs_none matchCmdBare_bsOnly (by decide) (by decide)
        (by decide) (matchCmdBare_none_notAlpha (by decide) [])
    simp only [pdfLineOut, h1]
    rw [if_pos (by decide)]
    rw [hca', hcb', h1, if_neg (by decide)]
  · decide

/-- C6 witness: a concrete line with an escaped ampersand. -/
theorem escape_rendering_witness :
    htmlLineOut (('x' :: []) ++ '\\' :: '&' :: []) = none ∧
    docxLineOut (('x' :: []) ++ '\\' :: '&' :: []) =
      [.par (String.mk (('x' :: []) ++ '&' :: []))] ∧
    pdfLineOut (('x' :: []) ++ '\\' :: '&' :: []) =
      [.par (String.mk (('x' :: []) ++ '\\' :: '&' :: []))] ∧
    htmlLineOut ('\\' :: '&' :: []) = some [] ∧
    docxLineOut ('\\' :: '&' :: []) = [] ∧
    pdfLineOut ('\\' :: '&' :: []) = [] :=
  escape_rendering 'x' [] [] '&' (by decide) (by decide) (by decide)
    (by decide) (by decide) (by decide)

end DocProc
